import Mathlib

/-!
Verification of the recrawl scheduling and extraction pipeline of the
labs-referral-pilot repository (src/app/src/ingestion/process_crawl_jobs.py,
src/app/src/db/manage_crawl_job.py, src/app/src/common/components.py).

The Python source is shallowly embedded: SQLAlchemy rows become structures,
the database session becomes an explicit `Store` value threaded through the
operations, timestamps become exact rationals measured in seconds (the source
computes `timedelta.total_seconds() / 3600` in floating point; we model the
division exactly over ℚ), raised exceptions become `Except PyError`, and
`asyncio.gather` over side-effect-free coroutines becomes a sequential
aggregation of each task's value.
-/

/-- Python exceptions and error outcomes that the embedded code can raise. -/
inductive PyError where
  | valueError (msg : String)
  | multipleResultsFound
  | nameError (nm : String)
  | keyError (key : String)
  | typeError (msg : String)
  | validationError (msg : String)
  | jsonDecodeError
  | generatorError (msg : String)
deriving Repr, DecidableEq

/-- Row of the `crawl_job` table (src/db/models/crawl_job.py). `last_crawled_at`
is a nullable UTC timestamp, modelled as seconds since the epoch over ℚ. -/
structure CrawlJob where
  prompt_name : Option String
  domain : String
  crawling_interval : Int
  last_crawled_at : Option ℚ
deriving Repr, DecidableEq

/-- Pydantic model `SupportEntry` (process_crawl_jobs.py lines 21-27). All six
fields are declared without defaults, so all six keys are required by
validation; `website` and `description` may be explicitly null. -/
structure SupportEntry where
  name : String
  website : Option String
  emails : List String
  addresses : List String
  phone_numbers : List String
  description : Option String
deriving Repr, DecidableEq

/-- Embedding of `get_jobs_to_process`'s per-job test (lines 43-70): a job is
kept when `last_crawled_at` is null, or when
`(now - last_crawled_at).total_seconds() / 3600 >= crawling_interval`. -/
def shouldProcess (now : ℚ) (job : CrawlJob) : Bool :=
  match job.last_crawled_at with
  | none => true
  | some t =>
      let time_since_last_crawl := now - t
      let hours_since_last_crawl := time_since_last_crawl / 3600
      decide (hours_since_last_crawl ≥ (job.crawling_interval : ℚ))

/-- Embedding of `get_jobs_to_process` (process_crawl_jobs.py lines 30-73): the
source loops over all jobs appending those whose flag is set, which is the
filter by `shouldProcess`. The database query supplies `jobs`; `now` is
`datetime_util.utcnow()`. -/
def get_jobs_to_process (now : ℚ) (jobs : List CrawlJob) : List CrawlJob :=
  jobs.filter (shouldProcess now)

/-- A job used by concrete witness checks: never crawled. -/
def jobNever : CrawlJob :=
  { prompt_name := some "test_prompt", domain := "example.org",
    crawling_interval := 24, last_crawled_at := none }

/-- Decoded JSON values, the result of a successful `json.loads`. -/
inductive JsonValue where
  | null
  | bool (b : Bool)
  | num (q : ℚ)
  | str (s : String)
  | arr (items : List JsonValue)
  | obj (fields : List (String × JsonValue))

/-- Dictionary lookup on a decoded JSON object (`entry["name"]` and pydantic's
field access). `json.loads` produces dictionaries, so keys are unique and the
first match is the match. -/
def lookupField (fields : List (String × JsonValue)) (k : String) : Option JsonValue :=
  (fields.find? (fun p => p.1 == k)).map (fun p => p.2)

/-- Embedding of `json.loads(message.content)`: the raw text is modelled by its
decoded value, `none` standing for text that is not valid JSON, on which
`json.loads` raises. -/
def json_loads (raw : Option JsonValue) : Except PyError JsonValue :=
  match raw with
  | none => .error .jsonDecodeError
  | some v => .ok v

/-- Iterating the decoded response as a list of entries; a non-array decoded
value fails when iterated into dictionary subscripts. -/
def asJsonArray (v : JsonValue) : Except PyError (List JsonValue) :=
  match v with
  | .arr items => .ok items
  | _ => .error (.typeError "decoded JSON is not an array of objects")

/-- Pydantic check of a `list[str]` field value: every element must be a
string. -/
def asStringList (items : List JsonValue) : Except PyError (List String) :=
  match items with
  | [] => .ok []
  | .str s :: rest =>
      match asStringList rest with
      | .ok tail => .ok (s :: tail)
      | .error e => .error e
  | _ :: _ => .error (.validationError "Input should be a valid string")

/-- Pydantic check of a required `str` field: the key must be present and hold
a string. -/
def reqString (fields : List (String × JsonValue)) (k : String) : Except PyError String :=
  match lookupField fields k with
  | some (.str s) => .ok s
  | some _ => .error (.validationError ("Input should be a valid string: " ++ k))
  | none => .error (.validationError ("Field required: " ++ k))

/-- Pydantic check of a required `str | None` field: the key must be present
and hold a string or null (no default is declared, so the key is required). -/
def optString (fields : List (String × JsonValue)) (k : String) : Except PyError (Option String) :=
  match lookupField fields k with
  | some (.str s) => .ok (some s)
  | some .null => .ok none
  | some _ => .error (.validationError ("Input should be a valid string or null: " ++ k))
  | none => .error (.validationError ("Field required: " ++ k))

/-- Pydantic check of a required `list[str]` field: the key must be present and
hold a list of strings (no default is declared, so the key is required). -/
def reqStringList (fields : List (String × JsonValue)) (k : String) : Except PyError (List String) :=
  match lookupField fields k with
  | some (.arr items) => asStringList items
  | some _ => .error (.validationError ("Input should be a valid list: " ++ k))
  | none => .error (.validationError ("Field required: " ++ k))

/-- Embedding of `SupportEntry(**entry)` (pydantic validation of one decoded
object against the SupportEntry model, fields in declaration order; pydantic
reports all field errors in one exception whereas we surface the first, which
agrees on error-versus-success). -/
def validateSupportEntry (v : JsonValue) : Except PyError SupportEntry :=
  match v with
  | .obj fields =>
      match reqString fields "name" with
      | .error e => .error e
      | .ok name =>
      match optString fields "website" with
      | .error e => .error e
      | .ok website =>
      match reqStringList fields "emails" with
      | .error e => .error e
      | .ok emails =>
      match reqStringList fields "addresses" with
      | .error e => .error e
      | .ok addresses =>
      match reqStringList fields "phone_numbers" with
      | .error e => .error e
      | .ok phone_numbers =>
      match optString fields "description" with
      | .error e => .error e
      | .ok description =>
        .ok { name := name, website := website, emails := emails, addresses := addresses,
              phone_numbers := phone_numbers, description := description }
  | _ => .error (.typeError "argument after ** must be a mapping")

/-- Embedding of `entry["name"]`: subscripting the decoded object, raising
KeyError when the key is absent and TypeError when the value is not an
object. -/
def getNameKey (v : JsonValue) : Except PyError JsonValue :=
  match v with
  | .obj fields =>
      match lookupField fields "name" with
      | some w => .ok w
      | none => .error (.keyError "name")
  | _ => .error (.typeError "value is not subscriptable")

/-- Python-dict insertion: assigning to an existing key keeps its position and
replaces its value; a new key is appended at the end. -/
def dictInsert (d : List (String × SupportEntry)) (k : String) (v : SupportEntry) :
    List (String × SupportEntry) :=
  match d with
  | [] => [(k, v)]
  | p :: rest => if p.1 == k then (k, v) :: rest else p :: dictInsert rest k v

/-- Embedding of the dict comprehension
`{entry["name"]: SupportEntry(**entry) for entry in support_entries_list}`
starting from an accumulated dictionary: each item's name key is read, the item
is validated, and the validated entry is assigned under its name. -/
def toEntriesDictFrom (d : List (String × SupportEntry)) (items : List JsonValue) :
    Except PyError (List (String × SupportEntry)) :=
  match items with
  | [] => .ok d
  | item :: rest =>
      match getNameKey item with
      | .error e => .error e
      | .ok _ =>
        match validateSupportEntry item with
        | .error e => .error e
        | .ok e => toEntriesDictFrom (dictInsert d e.name e) rest

/-- The dict comprehension of process_crawl_jobs.py line 160, from the empty
dictionary. -/
def toEntriesDict (items : List JsonValue) : Except PyError (List (String × SupportEntry)) :=
  toEntriesDictFrom [] items

/-- The §4.2 Schema Validator as realized by the source path: decode the raw
text (`json.loads`, process_crawl_jobs.py line 126), iterate the decoded array,
and validate each object into a SupportEntry keyed by name
(process_crawl_jobs.py line 160). -/
def validate_raw (raw : Option JsonValue) : Except PyError (List (String × SupportEntry)) :=
  match json_loads raw with
  | .error e => .error e
  | .ok decoded =>
      match asJsonArray decoded with
      | .error e => .error e
      | .ok items => toEntriesDict items

/-- Dictionary read-back used to state deduplication facts. -/
def dictFind (d : List (String × SupportEntry)) (k : String) : Option SupportEntry :=
  (d.find? (fun p => p.1 == k)).map (fun p => p.2)

/-- Deduplication by name with last occurrence winning, as performed by the
dict comprehension when every entry validates. -/
def dedupByName (es : List SupportEntry) : List (String × SupportEntry) :=
  es.foldl (fun d e => dictInsert d e.name e) []

/-- JSON encoding of an optional string (explicit null when absent). -/
def optStringToJson (s : Option String) : JsonValue :=
  match s with
  | none => .null
  | some t => .str t

/-- JSON object carrying exactly a SupportEntry's fields, used to exercise the
validator on conforming input. -/
def entryToJson (e : SupportEntry) : JsonValue :=
  .obj [("name", .str e.name),
        ("website", optStringToJson e.website),
        ("emails", .arr (e.emails.map JsonValue.str)),
        ("addresses", .arr (e.addresses.map JsonValue.str)),
        ("phone_numbers", .arr (e.phone_numbers.map JsonValue.str)),
        ("description", optStringToJson e.description)]

/-- The AsyncOpenAI client consumed by the pipeline, abstracted to the
observable behaviour the embedded code depends on: given a job (whose
`prompt_name` selects the Phoenix prompt and whose `domain` scopes the web
search), the chat-completion round trip produces either a raised error
(HTTP/auth/timeout, a failing prompt fetch) or the raw response text, modelled
by its decoded JSON (`none` when the text is not valid JSON). -/
structure OpenAIClient where
  respond : CrawlJob → Except PyError (Option JsonValue)

/-- Embedding of `call_openai_with_web_search` (lines 76-129): perform the API
round trip for the job's domain and parse the JSON response with
`json.loads`. -/
def call_openai_with_web_search (respond : CrawlJob → Except PyError (Option JsonValue))
    (job : CrawlJob) : Except PyError JsonValue :=
  match respond job with
  | .error e => .error e
  | .ok raw => json_loads raw

/-- Embedding of `process_single_job` (lines 132-166): fetch the prompt and
call OpenAI (both inside `respond`), then build the dictionary of validated
support entries keyed by name, deduplicating by name. -/
def process_single_job (respond : CrawlJob → Except PyError (Option JsonValue))
    (job : CrawlJob) : Except PyError (CrawlJob × List (String × SupportEntry)) :=
  match call_openai_with_web_search respond job with
  | .error e => .error e
  | .ok decoded =>
      match asJsonArray decoded with
      | .error e => .error e
      | .ok items =>
          match toEntriesDict items with
          | .error e => .error e
          | .ok support_entries => .ok (job, support_entries)

/-- Embedding of `await asyncio.gather(*tasks)` with the default
`return_exceptions=False` over tasks that touch no shared state: the await
yields the list of task results in input order when every task succeeds, and
raises a failing task's exception otherwise (sibling tasks are not cancelled,
but their results are discarded, not returned). -/
def gatherExcept {α : Type} (tasks : List (Except PyError α)) : Except PyError (List α) :=
  match tasks with
  | [] => .ok []
  | t :: rest =>
      match t with
      | .error e => .error e
      | .ok a =>
          match gatherExcept rest with
          | .error e => .error e
          | .ok as => .ok (a :: as)

/-- Embedding of `process_jobs_in_parallel` (lines 169-185): one
`process_single_job` task per job, aggregated with `asyncio.gather`. -/
def process_jobs_in_parallel (respond : CrawlJob → Except PyError (Option JsonValue))
    (jobs : List CrawlJob) : Except PyError (List (CrawlJob × List (String × SupportEntry))) :=
  gatherExcept (jobs.map (process_single_job respond))

/-- Row of the `support_listing` table (src/db/models/support_listing.py);
`id` is the primary key (a UUID in the source, modelled by a Nat drawn from
the store's fresh-id counter). -/
structure SupportListing where
  id : Nat
  name : String
  uri : String
deriving Repr, DecidableEq

/-- Row of the `support` table (src/db/models/support_listing.py). -/
structure Support where
  id : Nat
  support_listing_id : Nat
  name : String
  addresses : List String
  phone_numbers : List String
  description : Option String
  website : Option String
  email_addresses : List String
deriving Repr, DecidableEq

/-- The relational store visible to the merge writer: the `support_listing`
and `support` tables plus a fresh primary-key counter (the source uses UUIDs;
freshness is what matters). -/
structure Store where
  listings : List SupportListing
  supports : List Support
  nextId : Nat
deriving Repr, DecidableEq

/-- SQLAlchemy's `Query.one_or_none()`: none for no row, the row when unique,
raises MultipleResultsFound otherwise. -/
def one_or_none {α : Type} (rows : List α) : Except PyError (Option α) :=
  match rows with
  | [] => .ok none
  | [a] => .ok (some a)
  | _ :: _ :: _ => .error .multipleResultsFound

/-- The listing name derived from a job (process_crawl_jobs.py line 207). -/
def listingName (job : CrawlJob) : String :=
  "Crawl Job: " ++ job.domain

/-- The transient content of a support row, forgetting its row identity. -/
def Support.toEntry (r : Support) : SupportEntry :=
  { name := r.name, website := r.website, emails := r.email_addresses,
    addresses := r.addresses, phone_numbers := r.phone_numbers,
    description := r.description }

/-- The Support row built from one SupportEntry (lines 232-240). -/
def entryToSupport (sid : Nat) (rid : Nat) (e : SupportEntry) : Support :=
  { id := rid, support_listing_id := sid, name := e.name, addresses := e.addresses,
    phone_numbers := e.phone_numbers, description := e.description, website := e.website,
    email_addresses := e.emails }

/-- The loop of lines 230-241: one new Support row per entry, each drawing a
fresh id; returns the new rows and the advanced id counter. -/
def mkSupports (sid : Nat) (entries : List SupportEntry) (n : Nat) : List Support × Nat :=
  match entries with
  | [] => ([], n)
  | e :: rest =>
      let made := mkSupports sid rest (n + 1)
      (entryToSupport sid n e :: made.1, made.2)

/-- The in-place update `existing_listing.uri = job.domain` applied to the
row whose primary key matches. -/
def updateUri (lid : Nat) (u : String) (x : SupportListing) : SupportListing :=
  if x.id = lid then { x with uri := u } else x

/-- Embedding of `save_job_results` (lines 188-245): find or create the
listing named after the job, update its uri, delete all Support rows under it,
insert one new Support row per entry, and stamp the job's
`last_crawled_at`. -/
def save_job_results (store : Store) (job : CrawlJob) (support_entries : List SupportEntry)
    (now : ℚ) : Except PyError (Store × CrawlJob) :=
  match one_or_none (store.listings.filter (fun l => l.name == listingName job)) with
  | .error e => .error e
  | .ok (some existing_listing) =>
      let listings := store.listings.map (updateUri existing_listing.id job.domain)
      let kept := store.supports.filter (fun r => r.support_listing_id != existing_listing.id)
      let made := mkSupports existing_listing.id support_entries store.nextId
      .ok ({ listings := listings, supports := kept ++ made.1, nextId := made.2 },
           { job with last_crawled_at := some now })
  | .ok none =>
      let new_listing : SupportListing :=
        { id := store.nextId, name := listingName job, uri := job.domain }
      let made := mkSupports new_listing.id support_entries (store.nextId + 1)
      .ok ({ listings := store.listings ++ [new_listing],
             supports := store.supports ++ made.1, nextId := made.2 },
           { job with last_crawled_at := some now })

/-- Store sanity enforced by the schema: listing names are unique
(`unique=True` on `support_listing.name`), and every row id or foreign key in
the store was drawn from the fresh-id counter. -/
def Store.WF (s : Store) : Prop :=
  s.listings.Pairwise (fun a b => a.name ≠ b.name) ∧
  (∀ l ∈ s.listings, l.id < s.nextId) ∧
  (∀ r ∈ s.supports, r.id < s.nextId ∧ r.support_listing_id < s.nextId)

instance (s : Store) : Decidable s.WF := by
  unfold Store.WF
  infer_instance

/-- Name resolution of `client` at process_crawl_jobs.py line 268. The
function body `asyncio.run(process_jobs_in_parallel(jobs, client))` reads the
name `client`, which is assigned nowhere in `process_all_jobs` and nowhere at
module scope (the module imports the class `AsyncOpenAI` but never binds
`client`), so Python name resolution raises `NameError` when the line is
evaluated. -/
def clientLookup : Except PyError OpenAIClient :=
  .error (.nameError "client")

/-- The in-session update of the job row after a merge, keyed by the unique
domain. -/
def updateJobList (jobs : List CrawlJob) (j : CrawlJob) : List CrawlJob :=
  jobs.map (fun x => if x.domain = j.domain then j else x)

/-- The sequential save loop of `process_all_jobs` lines 271-273, merging each
returned (job, entries-dict) pair into the store. -/
def saveAllResults (state : List CrawlJob × Store)
    (results : List (CrawlJob × List (String × SupportEntry))) (now : ℚ) :
    Except PyError (List CrawlJob × Store) :=
  match results with
  | [] => .ok state
  | (job, support_entries) :: rest =>
      match save_job_results state.2 job (support_entries.map Prod.snd) now with
      | .error e => .error e
      | .ok (s', j') => saveAllResults (updateJobList state.1 j', s') rest now

/-- Embedding of `process_all_jobs` (lines 248-275): select the due jobs,
return immediately when there are none, otherwise evaluate the dispatch line —
whose argument list reads the unbound name `client` — and, were a client
value obtained, fan out the jobs and merge each result. The function is
annotated `-> None`; its successful result carries no summary data, so the
embedding returns the session state it leaves behind. -/
def process_all_jobs (jobs : List CrawlJob) (store : Store) (now : ℚ) :
    Except PyError (List CrawlJob × Store) :=
  let due := get_jobs_to_process now jobs
  if due.isEmpty then .ok (jobs, store)
  else
    match clientLookup with
    | .error e => .error e
    | .ok client =>
        match process_jobs_in_parallel client.respond due with
        | .error e => .error e
        | .ok results => saveAllResults (jobs, store) results now

/-- Embedding of `upsert_crawl_job` (src/db/manage_crawl_job.py lines 16-67):
reject a non-positive interval with ValueError, then update the job with the
given domain if one exists, else insert a new one. `prompt_name` is stored as
given, including `None`. -/
def upsert_crawl_job (jobs : List CrawlJob) (prompt_name : Option String) (domain : String)
    (crawling_interval : Int) : Except PyError (List CrawlJob × CrawlJob) :=
  if crawling_interval ≤ 0 then
    .error (.valueError "crawling_interval must be a positive integer")
  else
    match one_or_none (jobs.filter (fun j => j.domain == domain)) with
    | .error e => .error e
    | .ok (some existing_job) =>
        let updated : CrawlJob :=
          { existing_job with prompt_name := prompt_name, crawling_interval := crawling_interval }
        .ok (jobs.map (fun j => if j.domain == domain then updated else j), updated)
    | .ok none =>
        let new_job : CrawlJob :=
          { prompt_name := prompt_name, domain := domain,
            crawling_interval := crawling_interval, last_crawled_at := none }
        .ok (jobs ++ [new_job], new_job)

/-- Terminal outcome of the §4.3 Extraction Protocol. -/
inductive ProtocolResult where
  | done (entries : List SupportEntry)
  | failed (lastError : String)
deriving Repr, DecidableEq

/-- Modelled from the spec: the validate/retry loop of §4.3 is executed by the
haystack `Pipeline` runtime over the cyclic graph configured in
`PipelineWrapper._create_pipeline`
(src/pipelines/generate_referrals_rag/pipeline_wrapper.py lines 84-142, with
`max_runs_per_component=3` and the validator's `invalid_replies` and
`error_message` fed back into the prompt builder); the framework's loop
implementation is not part of this repository's sources, so the state machine
is modelled from §4.3: each attempt invokes the Generator, a valid result is
terminal success, an invalid result consumes one attempt and feeds the error
back, and exhausting the attempt budget is terminal failure propagating the
last validation error. `generate` is indexed by the number of calls already
made, so its value at `i` is the outcome of call `i + 1`. -/
def extraction_attempts (generate : Nat → Except String (List SupportEntry))
    (lastError : String) (fuel : Nat) (calls : Nat) : ProtocolResult × Nat :=
  match fuel with
  | 0 => (.failed lastError, calls)
  | f + 1 =>
      match generate calls with
      | .ok entries => (.done entries, calls + 1)
      | .error e => extraction_attempts generate e f (calls + 1)

/-- Modelled from the spec: one invocation of the §4.3 Extraction Protocol.
The attempt counter starts at zero on every invocation (the source comment at
pipeline_wrapper.py lines 85-86 records that the framework's visit counter is
reset with each call to `pipeline.run()`); the result is paired with the
number of Generator calls the invocation made. -/
def run_extraction_protocol (generate : Nat → Except String (List SupportEntry))
    (maxAttempts : Nat) : ProtocolResult × Nat :=
  extraction_attempts generate "" maxAttempts 0

/-- The attempt budget configured at pipeline_wrapper.py line 87. -/
def max_runs_per_component : Nat := 3

/-- Fixture: a job with no prompt reference, as accepted by the upsert. -/
def jobNoPrompt : CrawlJob :=
  { prompt_name := none, domain := "example.org", crawling_interval := 24,
    last_crawled_at := none }

/-- Fixture jobs for the dispatcher scenarios. -/
def jobOne : CrawlJob :=
  { prompt_name := some "test_prompt", domain := "one.example", crawling_interval := 24,
    last_crawled_at := none }

/-- Fixture job whose stubbed Generator always errors. -/
def jobTwo : CrawlJob :=
  { prompt_name := some "test_prompt", domain := "two.example", crawling_interval := 24,
    last_crawled_at := none }

/-- Fixture sibling job of `jobTwo`. -/
def jobThree : CrawlJob :=
  { prompt_name := some "test_prompt", domain := "three.example", crawling_interval := 24,
    last_crawled_at := none }

/-- Generator stub that raises for `jobTwo`'s domain and returns an empty
entry array for every other job. -/
def respondBoomOnTwo : CrawlJob → Except PyError (Option JsonValue) :=
  fun j => if j.domain == "two.example" then .error (.generatorError "boom")
           else .ok (some (.arr []))

/-- Generator stub that succeeds with an empty entry array for every job. -/
def respondEmptyOk : CrawlJob → Except PyError (Option JsonValue) :=
  fun _ => .ok (some (.arr []))

/-- Fixture: the empty store. -/
def emptyStore : Store :=
  { listings := [], supports := [], nextId := 0 }

/-- Fixture entry named A. -/
def entryA : SupportEntry :=
  { name := "A", website := none, emails := [], addresses := ["1 A St"],
    phone_numbers := [], description := none }

/-- Fixture entry named B. -/
def entryB : SupportEntry :=
  { name := "B", website := none, emails := [], addresses := ["2 B St"],
    phone_numbers := [], description := none }

/-- Fixture: the store left by merging `[entryA]` for `jobNever` into the empty
store at time 5. -/
def storeAfterA : Store :=
  { listings := [{ id := 0, name := "Crawl Job: example.org", uri := "example.org" }],
    supports := [entryToSupport 0 1 entryA], nextId := 2 }

/-- Fixture: the store left by merging `[entryA]` for `jobNever` a second
time into `storeAfterA` at time 7: same listing, same record content, fresh
record row. -/
def storeAfterAA : Store :=
  { listings := [{ id := 0, name := "Crawl Job: example.org", uri := "example.org" }],
    supports := [entryToSupport 0 2 entryA], nextId := 3 }

/-- Fixture: a decoded object carrying only the name and the nullable fields,
omitting the three array fields. -/
def objNameOnly : JsonValue :=
  .obj [("name", .str "Food Bank"), ("website", .null), ("description", .null)]

/-- Generator stub for the retry protocol that always returns invalid
output. -/
def alwaysInvalid : Nat → Except String (List SupportEntry) :=
  fun _ => .error "invalid JSON"

/-- C2: `get_jobs_to_process` selects exactly the jobs whose `last_crawled_at`
is null or whose elapsed time since `last_crawled_at` is at least
`crawling_interval` hours (3600·interval seconds), boundary included; a job
last crawled strictly less than the interval ago is never selected. -/
theorem get_jobs_to_process_selects_due (now : ℚ) (jobs : List CrawlJob) (job : CrawlJob) :
    job ∈ get_jobs_to_process now jobs ↔
      job ∈ jobs ∧ (job.last_crawled_at = none ∨
        ∃ t, job.last_crawled_at = some t ∧ (job.crawling_interval : ℚ) * 3600 ≤ now - t) := by
  unfold get_jobs_to_process
  rw [List.mem_filter]
  constructor
  · rintro ⟨hmem, hp⟩
    refine ⟨hmem, ?_⟩
    unfold shouldProcess at hp
    cases h : job.last_crawled_at with
    | none => exact Or.inl rfl
    | some t =>
        rw [h] at hp
        simp only [decide_eq_true_eq, ge_iff_le] at hp
        refine Or.inr ⟨t, rfl, ?_⟩
        exact (le_div_iff₀ (by norm_num : (0:ℚ) < 3600)).mp hp
  · rintro ⟨hmem, hdue⟩
    refine ⟨hmem, ?_⟩
    unfold shouldProcess
    rcases hdue with hnull | ⟨t, ht, hle⟩
    · rw [hnull]
    · rw [ht]
      simp only [decide_eq_true_eq, ge_iff_le]
      exact (le_div_iff₀ (by norm_num : (0:ℚ) < 3600)).mpr hle

theorem dictFind_nil (k : String) : dictFind [] k = none := rfl

theorem dictFind_cons (p : String × SupportEntry) (rest : List (String × SupportEntry))
    (k' : String) :
    dictFind (p :: rest) k' = if p.1 = k' then some p.2 else dictFind rest k' := by
  simp only [dictFind, List.find?]
  by_cases h : p.1 = k'
  · rw [show (p.1 == k') = true from beq_iff_eq.mpr h]
    simp [h]
  · rw [show (p.1 == k') = false from beq_eq_false_iff_ne.mpr h]
    simp [h]

theorem dictFind_dictInsert (d : List (String × SupportEntry)) (k k' : String)
    (v : SupportEntry) :
    dictFind (dictInsert d k v) k' = if k' = k then some v else dictFind d k' := by
  induction d with
  | nil =>
      simp only [dictInsert]
      rw [dictFind_cons]
      simp only [dictFind_nil]
      by_cases h : k' = k
      · simp [h]
      · have hk : ¬ k = k' := fun hh => h hh.symm
        simp [h, hk]
  | cons p rest ih =>
      simp only [dictInsert]
      by_cases hpk : p.1 = k
      · rw [if_pos (beq_iff_eq.mpr hpk)]
        rw [dictFind_cons, dictFind_cons]
        by_cases h : k' = k
        · subst h
          simp [hpk]
        · have hpk' : ¬ p.1 = k' := fun hh => h (hpk ▸ hh).symm
          have hk : ¬ k = k' := fun hh => h hh.symm
          simp [h, hk, hpk']
      · rw [if_neg (fun hh : (p.1 == k) = true => hpk (beq_iff_eq.mp hh))]
        rw [dictFind_cons, dictFind_cons, ih]
        by_cases h : k' = k
        · subst h
          simp [hpk]
        · simp [h]

theorem dictInsert_keys (d : List (String × SupportEntry)) (k : String) (v : SupportEntry) :
    (dictInsert d k v).map Prod.fst =
      if k ∈ d.map Prod.fst then d.map Prod.fst else d.map Prod.fst ++ [k] := by
  induction d with
  | nil => simp [dictInsert]
  | cons p rest ih =>
      simp only [dictInsert]
      by_cases hpk : p.1 = k
      · rw [if_pos (beq_iff_eq.mpr hpk)]
        simp [hpk]
      · rw [if_neg (fun hh : (p.1 == k) = true => hpk (beq_iff_eq.mp hh))]
        have hk : ¬ k = p.1 := fun hh => hpk hh.symm
        simp only [List.map_cons, List.mem_cons]
        rw [ih]
        by_cases hmem : k ∈ rest.map Prod.fst
        · simp [hmem]
        · simp [hmem, hk]

theorem dictInsert_keys_nodup (d : List (String × SupportEntry)) (k : String) (v : SupportEntry)
    (h : (d.map Prod.fst).Nodup) : ((dictInsert d k v).map Prod.fst).Nodup := by
  rw [dictInsert_keys]
  by_cases hmem : k ∈ d.map Prod.fst
  · simpa [hmem] using h
  · rw [if_neg hmem]
    rw [List.nodup_append]
    exact ⟨h, List.nodup_singleton k, by
      intro a ha hb
      rw [List.mem_singleton] at hb
      exact hmem (hb ▸ ha)⟩

theorem foldl_dictInsert_keys_nodup (es : List SupportEntry) :
    ∀ d : List (String × SupportEntry), (d.map Prod.fst).Nodup →
      ((es.foldl (fun d e => dictInsert d e.name e) d).map Prod.fst).Nodup := by
  induction es with
  | nil => intro d h; simpa using h
  | cons e es ih =>
      intro d h
      simp only [List.foldl_cons]
      exact ih _ (dictInsert_keys_nodup _ _ _ h)

theorem dictFind_foldl (es : List SupportEntry) :
    ∀ (d : List (String × SupportEntry)) (k : String),
      dictFind (es.foldl (fun d e => dictInsert d e.name e) d) k =
        match (es.filter (fun e => e.name == k)).getLast? with
        | some e => some e
        | none => dictFind d k := by
  induction es with
  | nil => intro d k; simp
  | cons e es ih =>
      intro d k
      simp only [List.foldl_cons, List.filter_cons]
      rw [ih]
      by_cases h : e.name = k
      · rw [if_pos (by simpa using h)]
        rw [List.getLast?_cons]
        cases hl : (es.filter (fun e => e.name == k)).getLast? with
        | some x => simp [hl]
        | none => simp [hl, dictFind_dictInsert, h]
      · rw [if_neg (by simpa using h)]
        cases hl : (es.filter (fun e => e.name == k)).getLast? with
        | some x => simp [hl]
        | none =>
            have hk : ¬ k = e.name := fun hh => h hh.symm
            simp [hl, dictFind_dictInsert, hk]

theorem asStringList_map_str (l : List String) :
    asStringList (l.map JsonValue.str) = .ok l := by
  induction l with
  | nil => rfl
  | cons s rest ih => simp [asStringList, ih]

theorem validateSupportEntry_roundtrip (e : SupportEntry) :
    validateSupportEntry (entryToJson e) = .ok e := by
  obtain ⟨name, website, emails, addresses, phone_numbers, description⟩ := e
  cases website <;> cases description <;>
    simp [validateSupportEntry, entryToJson, reqString, optString, reqStringList,
      lookupField, List.find?, optStringToJson, asStringList_map_str]

theorem getNameKey_entryToJson (e : SupportEntry) :
    getNameKey (entryToJson e) = .ok (.str e.name) := rfl

theorem toEntriesDictFrom_map (es : List SupportEntry) :
    ∀ d : List (String × SupportEntry),
      toEntriesDictFrom d (es.map entryToJson) =
        .ok (es.foldl (fun d e => dictInsert d e.name e) d) := by
  induction es with
  | nil => intro d; rfl
  | cons e es ih =>
      intro d
      simp only [List.map_cons, List.foldl_cons, toEntriesDictFrom]
      rw [getNameKey_entryToJson, validateSupportEntry_roundtrip]
      exact ih _

/-- C10: within a single extraction run, `process_single_job` deduplicates the
extracted entries by name with the last occurrence winning: the returned
dictionary has pairwise-distinct names, and the entry stored under each name
carries the field values of the last entry in the extracted list bearing that
name. -/
theorem process_single_job_dedup_by_name (es : List SupportEntry) (job : CrawlJob) :
    process_single_job (fun _ => .ok (some (.arr (es.map entryToJson)))) job
        = .ok (job, dedupByName es) ∧
    ((dedupByName es).map Prod.fst).Nodup ∧
    ∀ k, dictFind (dedupByName es) k = (es.filter (fun e => e.name == k)).getLast? := by
  refine ⟨?_, ?_, ?_⟩
  · simp only [process_single_job, call_openai_with_web_search, json_loads, asJsonArray,
      toEntriesDict, dedupByName]
    rw [toEntriesDictFrom_map]
  · exact foldl_dictInsert_keys_nodup es [] (by simp)
  · intro k
    rw [dedupByName, dictFind_foldl]
    cases (es.filter (fun e => e.name == k)).getLast? <;> simp [dictFind_nil]

theorem toEntriesDictFrom_ok_valid (items : List JsonValue) :
    ∀ d out : List (String × SupportEntry), toEntriesDictFrom d items = .ok out →
      ∀ o ∈ items, (validateSupportEntry o).isOk = true := by
  induction items with
  | nil => intro d out h o ho; simp at ho
  | cons item rest ih =>
      intro d out h o ho
      rw [toEntriesDictFrom] at h
      cases hg : getNameKey item with
      | error e => rw [hg] at h; exact absurd h (by simp)
      | ok w =>
          rw [hg] at h
          cases hv : validateSupportEntry item with
          | error e => rw [hv] at h; exact absurd h (by simp)
          | ok e =>
              rw [hv] at h
              rcases List.mem_cons.mp ho with rfl | ho'
              · simp [hv, Except.isOk, Except.toBool]
              · exact ih _ _ h o ho'

/-- C8 counterexample: the decoded input `[{"name": "Food Bank", "website":
null, "description": null}]`, whose only flaw is that the optional array
fields are omitted, is rejected by validation with a field-required error
instead of succeeding with those arrays normalized to empty lists. -/
theorem validate_raw_no_array_normalization :
    validate_raw (some (.arr [objNameOnly])) =
      .error (.validationError "Field required: emails") := rfl

/-- C8 amended: validation returns an error whenever decoding fails, any
object lacks the required name field, or any object omits any of the
emails/addresses/phone_numbers keys (every field key is required; website and
description are optional only in that they may be null) — never a
partial/best-effort result — and on success each entry carries exactly the
field values supplied, with no normalization of omitted arrays. -/
theorem validate_raw_error_conditions :
    (validate_raw none = .error .jsonDecodeError) ∧
    (∀ (items : List JsonValue) (o : JsonValue), o ∈ items →
      (validateSupportEntry o).isOk = false →
      (validate_raw (some (.arr items))).isOk = false) ∧
    (∀ fields : List (String × JsonValue), lookupField fields "name" = none →
      (validateSupportEntry (.obj fields)).isOk = false) ∧
    (∀ fields : List (String × JsonValue), lookupField fields "emails" = none →
      (validateSupportEntry (.obj fields)).isOk = false) ∧
    (∀ fields : List (String × JsonValue), lookupField fields "addresses" = none →
      (validateSupportEntry (.obj fields)).isOk = false) ∧
    (∀ fields : List (String × JsonValue), lookupField fields "phone_numbers" = none →
      (validateSupportEntry (.obj fields)).isOk = false) ∧
    (∀ e : SupportEntry, validateSupportEntry (entryToJson e) = .ok e) := by
  refine ⟨rfl, ?_, ?_, ?_, ?_, ?_, validateSupportEntry_roundtrip⟩
  · intro items o ho hfail
    simp only [validate_raw, json_loads, asJsonArray, toEntriesDict]
    cases hres : toEntriesDictFrom [] items with
    | error e => simp [Except.isOk, Except.toBool]
    | ok out =>
        have := toEntriesDictFrom_ok_valid items [] out hres o ho
        rw [hfail] at this
        exact absurd this (by simp)
  · intro fields h
    simp [validateSupportEntry, reqString, h, Except.isOk, Except.toBool]
  · intro fields h
    simp only [validateSupportEntry]
    cases h1 : reqString fields "name" with
    | error e => simp [Except.isOk, Except.toBool]
    | ok name =>
        cases h2 : optString fields "website" with
        | error e => simp [Except.isOk, Except.toBool]
        | ok website => simp [reqStringList, h, Except.isOk, Except.toBool]
  · intro fields h
    simp only [validateSupportEntry]
    cases h1 : reqString fields "name" with
    | error e => simp [Except.isOk, Except.toBool]
    | ok name =>
        cases h2 : optString fields "website" with
        | error e => simp [Except.isOk, Except.toBool]
        | ok website =>
            cases h3 : reqStringList fields "emails" with
            | error e => simp [Except.isOk, Except.toBool]
            | ok emails => simp [reqStringList, h, Except.isOk, Except.toBool]
  · intro fields h
    simp only [validateSupportEntry]
    cases h1 : reqString fields "name" with
    | error e => simp [Except.isOk, Except.toBool]
    | ok name =>
        cases h2 : optString fields "website" with
        | error e => simp [Except.isOk, Except.toBool]
        | ok website =>
            cases h3 : reqStringList fields "emails" with
            | error e => simp [Except.isOk, Except.toBool]
            | ok emails =>
                cases h4 : reqStringList fields "addresses" with
                | error e => simp [Except.isOk, Except.toBool]
                | ok addresses => simp [reqStringList, h, Except.isOk, Except.toBool]

/-- C8 witness: a concrete object lacking the emails key is rejected. -/
theorem validate_raw_error_conditions_witness :
    (validateSupportEntry (.obj [("name", .str "A")])).isOk = false :=
  validate_raw_error_conditions.2.2.2.1 [("name", .str "A")] rfl

theorem gatherExcept_ok_of_all {α : Type} (tasks : List (Except PyError α))
    (h : ∀ t ∈ tasks, t.isOk = true) :
    gatherExcept tasks = .ok (tasks.filterMap Except.toOption) := by
  induction tasks with
  | nil => rfl
  | cons t rest ih =>
      have ht := h t (by simp)
      cases t with
      | error e => simp [Except.isOk, Except.toBool] at ht
      | ok a =>
          rw [gatherExcept, ih (fun u hu => h u (by simp [hu]))]
          simp [Except.toOption]

theorem gatherExcept_error_of_mem {α : Type} (tasks : List (Except PyError α))
    (h : ∃ t ∈ tasks, t.isOk = false) :
    (gatherExcept tasks).isOk = false := by
  induction tasks with
  | nil => rcases h with ⟨t, ht, _⟩; simp at ht
  | cons t rest ih =>
      rcases h with ⟨u, hu, hfail⟩
      rcases List.mem_cons.mp hu with rfl | hu'
      · cases u with
        | error e => simp [gatherExcept, Except.isOk, Except.toBool]
        | ok a => simp [Except.isOk, Except.toBool] at hfail
      · cases t with
        | error e => simp [gatherExcept, Except.isOk, Except.toBool]
        | ok a =>
            have hrest := ih ⟨u, hu', hfail⟩
            rw [gatherExcept]
            cases hr : gatherExcept rest with
            | error e => simp [Except.isOk, Except.toBool]
            | ok as => rw [hr] at hrest; simp [Except.isOk, Except.toBool] at hrest

/-- C1 counterexample: with three due jobs whose stubbed Generator errors only
on the second job, the dispatch propagates that exception instead of
returning one outcome per input job — the sibling jobs' results are not
returned. -/
theorem process_jobs_in_parallel_failure_propagates :
    process_jobs_in_parallel respondBoomOnTwo [jobOne, jobTwo, jobThree] =
      .error (.generatorError "boom") := rfl

/-- C1 amended: when every job's invocation succeeds, `asyncio.gather` with
its default `return_exceptions=False` makes the dispatch return one outcome
per input job in input order; when any job's invocation fails, the exception
propagates out of `process_jobs_in_parallel` and no per-job outcomes are
returned for the siblings. -/
theorem process_jobs_in_parallel_first_failure
    (respond : CrawlJob → Except PyError (Option JsonValue)) (jobs : List CrawlJob) :
    ((∀ j ∈ jobs, (process_single_job respond j).isOk = true) →
      process_jobs_in_parallel respond jobs =
        .ok (jobs.filterMap (fun j => (process_single_job respond j).toOption))) ∧
    ((∃ j ∈ jobs, (process_single_job respond j).isOk = false) →
      (process_jobs_in_parallel respond jobs).isOk = false) := by
  constructor
  · intro h
    rw [process_jobs_in_parallel, gatherExcept_ok_of_all]
    · rw [List.filterMap_map]
      rfl
    · intro t ht
      rcases List.mem_map.mp ht with ⟨j, hj, rfl⟩
      exact h j hj
  · rintro ⟨j, hj, hfail⟩
    exact gatherExcept_error_of_mem _ ⟨_, List.mem_map_of_mem _ hj, hfail⟩

/-- C1 amended witness: with two jobs whose stub succeeds, the dispatch
returns one outcome per job. -/
theorem process_jobs_in_parallel_first_failure_witness :
    process_jobs_in_parallel respondEmptyOk [jobOne, jobThree] =
      .ok ([jobOne, jobThree].filterMap
        (fun j => (process_single_job respondEmptyOk j).toOption)) :=
  (process_jobs_in_parallel_first_failure respondEmptyOk [jobOne, jobThree]).1 (by decide)

theorem extraction_attempts_all_fail (generate : Nat → Except String (List SupportEntry))
    (E : Nat → String) (hfail : ∀ i, generate i = .error (E i)) :
    ∀ (fuel calls : Nat) (last : String),
      extraction_attempts generate last (fuel + 1) calls =
        (.failed (E (calls + fuel)), calls + fuel + 1) := by
  intro fuel
  induction fuel with
  | zero => intro calls last; simp [extraction_attempts, hfail calls]
  | succ f ih =>
      intro calls last
      have hstep : extraction_attempts generate last (f + 1 + 1) calls =
          extraction_attempts generate (E calls) (f + 1) (calls + 1) := by
        rw [extraction_attempts, hfail calls]
      rw [hstep, ih (calls + 1) (E calls)]
      have h1 : calls + 1 + f = calls + (f + 1) := by omega
      rw [h1]

theorem extraction_attempts_calls_le (generate : Nat → Except String (List SupportEntry)) :
    ∀ (fuel calls : Nat) (last : String),
      (extraction_attempts generate last fuel calls).2 ≤ calls + fuel := by
  intro fuel
  induction fuel with
  | zero => intro calls last; simp [extraction_attempts]
  | succ f ih =>
      intro calls last
      simp only [extraction_attempts]
      cases generate calls with
      | ok entries => simp
      | error e => exact (ih (calls + 1) e).trans (by omega)

/-- C4: with a Generator whose output never validates, one invocation of the
Extraction Protocol terminates in failure after exactly `maxAttempts` calls to
the Generator, propagating the last validation error; no invocation ever makes
more than `maxAttempts` calls, the counter starting at zero afresh each
invocation; the configured default budget is 3. -/
theorem extraction_protocol_retry_termination
    (generate : Nat → Except String (List SupportEntry)) (E : Nat → String)
    (maxAttempts : Nat) (hfail : ∀ i, generate i = .error (E i)) (hpos : 0 < maxAttempts) :
    run_extraction_protocol generate maxAttempts =
      (.failed (E (maxAttempts - 1)), maxAttempts) ∧
    (∀ g : Nat → Except String (List SupportEntry),
      (run_extraction_protocol g maxAttempts).2 ≤ maxAttempts) ∧
    max_runs_per_component = 3 := by
  refine ⟨?_, ?_, rfl⟩
  · obtain ⟨m, rfl⟩ : ∃ m, maxAttempts = m + 1 := ⟨maxAttempts - 1, by omega⟩
    rw [run_extraction_protocol, extraction_attempts_all_fail generate E hfail m 0 ""]
    simp
  · intro g
    have := extraction_attempts_calls_le g maxAttempts 0 ""
    simpa [run_extraction_protocol] using this

/-- C4 witness: a stub always returning invalid output exhausts the default
budget of 3 in exactly 3 Generator calls. -/
theorem extraction_protocol_retry_termination_witness :
    run_extraction_protocol alwaysInvalid 3 = (.failed "invalid JSON", 3) ∧ 0 < 3 :=
  ⟨(extraction_protocol_retry_termination alwaysInvalid (fun _ => "invalid JSON") 3
      (fun _ => rfl) (by decide)).1, by decide⟩

/-- C6: whenever the scheduler selects at least one due job,
`process_all_jobs` evaluates the dispatch call's argument `client` — a name
bound nowhere in its scope — and raises NameError before any extraction or
merge is performed, leaving the store unchanged; it completes normally
(returning the state unchanged, with zero work) exactly when no jobs are
due. -/
theorem process_all_jobs_unbound_client (jobs : List CrawlJob) (store : Store) (now : ℚ) :
    (get_jobs_to_process now jobs ≠ [] →
      process_all_jobs jobs store now = .error (.nameError "client")) ∧
    (get_jobs_to_process now jobs = [] →
      process_all_jobs jobs store now = .ok (jobs, store)) := by
  constructor
  · intro h
    rw [process_all_jobs]
    have hne : (get_jobs_to_process now jobs).isEmpty = false := by
      cases hdue : get_jobs_to_process now jobs with
      | nil => exact absurd hdue h
      | cons a l => rfl
    simp [hne, clientLookup]
  · intro h
    rw [process_all_jobs]
    simp [h]

/-- C6 witness: one never-crawled job is due and triggers the NameError; with
no due job the call returns normally with the state unchanged. -/
theorem process_all_jobs_unbound_client_witness :
    process_all_jobs [jobNever] emptyStore 5 = .error (.nameError "client") ∧
    process_all_jobs [] emptyStore 5 = .ok ([], emptyStore) :=
  ⟨(process_all_jobs_unbound_client [jobNever] emptyStore 5).1 (by decide),
   (process_all_jobs_unbound_client [] emptyStore 5).2 rfl⟩

/-- C5 counterexample: an invocation with one due job produces no summary
count of any kind — it raises NameError instead of completing. -/
theorem process_all_jobs_no_counts_counterexample :
    process_all_jobs [jobNever] emptyStore 10 = .error (.nameError "client") := rfl

/-- C5 amended: `process_all_jobs` returns no summary count of (attempted,
succeeded, failed): it is annotated `-> None`, completes successfully exactly
when no jobs were due — in which case the only observable outcome is the
unchanged session state, distinguishing "no jobs were due" only by returning
normally — and raises instead of reporting counts when any job is due. -/
theorem process_all_jobs_no_summary (jobs : List CrawlJob) (store : Store) (now : ℚ) :
    ((process_all_jobs jobs store now).isOk = true ↔ get_jobs_to_process now jobs = []) ∧
    ∀ p, process_all_jobs jobs store now = .ok p → p = (jobs, store) := by
  have hcomp : process_all_jobs jobs store now =
      if (get_jobs_to_process now jobs).isEmpty then .ok (jobs, store)
      else .error (.nameError "client") := by
    rw [process_all_jobs]
    cases hdue : get_jobs_to_process now jobs <;> simp [clientLookup]
  cases hdue : get_jobs_to_process now jobs with
  | nil =>
      rw [hcomp, hdue]
      constructor
      · simp [Except.isOk, Except.toBool]
      · intro p hp
        simp only [List.isEmpty_nil, if_true] at hp
        exact (Except.ok.injEq _ _).mp hp.symm ▸ rfl
  | cons a l =>
      rw [hcomp, hdue]
      constructor
      · simp [Except.isOk, Except.toBool]
      · intro p hp
        simp at hp

/-- C5 amended witness: with no registered jobs the call completes normally
and returns the unchanged state. -/
theorem process_all_jobs_no_summary_witness :
    (process_all_jobs [] emptyStore 3).isOk = true :=
  (process_all_jobs_no_summary [] emptyStore 3).1.mpr rfl

/-- C7 counterexample: `upsert_crawl_job` accepts a job with a missing
instruction/prompt reference (prompt_name = None) when the interval is
positive: the store gains the job instead of staying unchanged, so the job
enters scheduling. -/
theorem upsert_crawl_job_accepts_missing_prompt :
    upsert_crawl_job [] none "example.org" 24 = .ok ([jobNoPrompt], jobNoPrompt) := rfl

/-- C7 amended: only a non-positive crawling interval is rejected
synchronously at create/update time (ValueError, no store change); a missing
instruction/prompt reference is not rejected — the upsert stores the job with
prompt_name = None, and such a job enters scheduling. -/
theorem upsert_crawl_job_amended (jobs : List CrawlJob) (pn : Option String)
    (domain : String) (interval : Int) :
    (interval ≤ 0 →
      upsert_crawl_job jobs pn domain interval =
        .error (.valueError "crawling_interval must be a positive integer")) ∧
    (0 < interval → jobs.filter (fun j => j.domain == domain) = [] →
      upsert_crawl_job jobs pn domain interval =
        .ok (jobs ++ [{ prompt_name := pn, domain := domain,
                        crawling_interval := interval, last_crawled_at := none }],
             { prompt_name := pn, domain := domain, crawling_interval := interval,
               last_crawled_at := none })) := by
  constructor
  · intro h
    rw [upsert_crawl_job, if_pos h]
  · intro hpos hfilter
    rw [upsert_crawl_job, if_neg (by omega), hfilter]
    rfl

/-- C7 amended witness: a zero interval is rejected; a positive interval with
a fresh domain is inserted. -/
theorem upsert_crawl_job_amended_witness :
    upsert_crawl_job [] (some "p") "x.org" 0 =
      .error (.valueError "crawling_interval must be a positive integer") ∧
    upsert_crawl_job [] (some "p") "x.org" 2 =
      .ok ([{ prompt_name := some "p", domain := "x.org", crawling_interval := 2,
              last_crawled_at := none }],
           { prompt_name := some "p", domain := "x.org", crawling_interval := 2,
             last_crawled_at := none }) :=
  ⟨(upsert_crawl_job_amended [] (some "p") "x.org" 0).1 (by decide),
   (upsert_crawl_job_amended [] (some "p") "x.org" 2).2 (by decide) rfl⟩

theorem mkSupports_map_toEntry (sid : Nat) (es : List SupportEntry) :
    ∀ n : Nat, ((mkSupports sid es n).1).map Support.toEntry = es := by
  induction es with
  | nil => intro n; rfl
  | cons e rest ih =>
      intro n
      simp only [mkSupports, List.map_cons, ih (n + 1)]
      rfl

theorem mkSupports_mem (sid : Nat) (es : List SupportEntry) :
    ∀ (n : Nat) (r : Support), r ∈ (mkSupports sid es n).1 →
      r.support_listing_id = sid ∧ n ≤ r.id := by
  induction es with
  | nil => intro n r hr; simp [mkSupports] at hr
  | cons e rest ih =>
      intro n r hr
      simp only [mkSupports, List.mem_cons] at hr
      rcases hr with rfl | hr
      · exact ⟨rfl, Nat.le_refl n⟩
      · have := ih (n + 1) r hr
        exact ⟨this.1, by omega⟩

theorem mkSupports_filter_self (sid : Nat) (es : List SupportEntry) (n : Nat) :
    ((mkSupports sid es n).1).filter (fun r => r.support_listing_id == sid) =
      (mkSupports sid es n).1 := by
  apply List.filter_eq_self.mpr
  intro r hr
  have := (mkSupports_mem sid es n r hr).1
  simp [this]

theorem mkSupports_filter_ne (sid : Nat) (es : List SupportEntry) (n : Nat) :
    ((mkSupports sid es n).1).filter (fun r => r.support_listing_id != sid) = [] := by
  apply List.filter_eq_nil_iff.mpr
  intro r hr
  have := (mkSupports_mem sid es n r hr).1
  simp [this]

theorem pairwise_names_one_or_none (L : List SupportListing)
    (hpw : L.Pairwise (fun a b => a.name ≠ b.name)) (nm : String) :
    L.filter (fun l => l.name == nm) = [] ∨
    ∃ l, L.filter (fun l => l.name == nm) = [l] := by
  induction L with
  | nil => exact Or.inl rfl
  | cons x L ih =>
      have hx := (List.pairwise_cons.mp hpw).1
      have hpw' := (List.pairwise_cons.mp hpw).2
      by_cases hnm : x.name = nm
      · right
        refine ⟨x, ?_⟩
        rw [List.filter_cons_of_pos (by simpa using hnm)]
        have hnil : L.filter (fun l => l.name == nm) = [] := by
          apply List.filter_eq_nil_iff.mpr
          intro b hb
          simp only [beq_iff_eq]
          exact fun hh => hx b hb (hnm.trans hh.symm)
        rw [hnil]
      · rw [List.filter_cons_of_neg (by simpa using hnm)]
        exact ih hpw'

theorem one_or_none_nil {α : Type} : one_or_none ([] : List α) = .ok none := rfl

theorem one_or_none_singleton {α : Type} (a : α) : one_or_none [a] = .ok (some a) := rfl

theorem updateUri_name (lid : Nat) (u : String) (x : SupportListing) :
    (updateUri lid u x).name = x.name := by
  unfold updateUri
  split <;> rfl

theorem updateUri_idem (lid : Nat) (u : String) (x : SupportListing) :
    updateUri lid u (updateUri lid u x) = updateUri lid u x := by
  unfold updateUri
  by_cases h : x.id = lid <;> simp [h]

theorem filter_name_map_updateUri (L : List SupportListing) (lid : Nat) (u : String)
    (nm : String) :
    (L.map (updateUri lid u)).filter (fun x => x.name == nm) =
      (L.filter (fun x => x.name == nm)).map (updateUri lid u) := by
  rw [List.filter_map]
  congr 1
  apply List.filter_congr
  intro x _
  simp [updateUri_name]

/-- C3: on a well-formed store, merging a job's deduplicated entries leaves
exactly one Listing named "Crawl Job: " ++ job.domain, whose uri is the job's
domain, whose child Records are exactly one per supplied entry (in order, with
the entries' field values), and every Record previously under that Listing is
gone; the job is stamped with the merge time. -/
theorem save_job_results_replaces (store : Store) (job : CrawlJob)
    (es : List SupportEntry) (now : ℚ) (hwf : store.WF) :
    ∃ (s' : Store) (lst : SupportListing),
      save_job_results store job es now =
        .ok (s', { job with last_crawled_at := some now }) ∧
      s'.listings.filter (fun l => l.name == listingName job) = [lst] ∧
      lst.uri = job.domain ∧
      (s'.supports.filter (fun r => r.support_listing_id == lst.id)).map Support.toEntry
        = es ∧
      ∀ r ∈ store.supports, r.support_listing_id = lst.id → r ∉ s'.supports := by
  obtain ⟨hpw, hlid, hsup⟩ := hwf
  rcases pairwise_names_one_or_none store.listings hpw (listingName job) with hfe | ⟨l, hfl⟩
  · have hid :
        ({ id := store.nextId, name := listingName job, uri := job.domain } : SupportListing).id
          = store.nextId := rfl
    refine ⟨{ listings := store.listings ++
                [{ id := store.nextId, name := listingName job, uri := job.domain }],
              supports := store.supports ++
                (mkSupports store.nextId es (store.nextId + 1)).1,
              nextId := (mkSupports store.nextId es (store.nextId + 1)).2 },
            { id := store.nextId, name := listingName job, uri := job.domain },
            ?_, ?_, rfl, ?_, ?_⟩
    · rw [save_job_results, hfe]
      rfl
    · show (store.listings ++ _).filter _ = _
      rw [List.filter_append, hfe]
      simp
    · show ((store.supports ++ _).filter _).map _ = _
      rw [hid, List.filter_append]
      have h1 : store.supports.filter
          (fun r => r.support_listing_id == store.nextId) = [] := by
        apply List.filter_eq_nil_iff.mpr
        intro r hr
        have := (hsup r hr).2
        simp only [beq_iff_eq]
        omega
      rw [h1, List.nil_append, mkSupports_filter_self, mkSupports_map_toEntry]
    · intro r hr hrl
      rw [hid] at hrl
      have h2 := (hsup r hr).2
      exact absurd hrl (by omega)
  · have hlname : l.name = listingName job := by
      have hml : l ∈ store.listings.filter (fun x => x.name == listingName job) := by
        rw [hfl]; exact List.mem_singleton.mpr rfl
      have h2 := List.mem_filter.mp hml
      simpa using h2.2
    have hid : ({ l with uri := job.domain } : SupportListing).id = l.id := rfl
    refine ⟨{ listings := store.listings.map (updateUri l.id job.domain),
              supports := store.supports.filter
                  (fun r => r.support_listing_id != l.id) ++
                (mkSupports l.id es store.nextId).1,
              nextId := (mkSupports l.id es store.nextId).2 },
            { l with uri := job.domain }, ?_, ?_, rfl, ?_, ?_⟩
    · rw [save_job_results, hfl]
      rfl
    · show (store.listings.map _).filter _ = _
      rw [filter_name_map_updateUri, hfl]
      simp [updateUri]
    · show ((_ ++ _ : List Support).filter _).map _ = _
      rw [hid, List.filter_append]
      have h1 : (store.supports.filter (fun r => r.support_listing_id != l.id)).filter
          (fun r => r.support_listing_id == l.id) = [] := by
        apply List.filter_eq_nil_iff.mpr
        intro r hr
        have := (List.mem_filter.mp hr).2
        simp only [bne_iff_ne] at this
        simp [this]
      rw [h1, List.nil_append, mkSupports_filter_self, mkSupports_map_toEntry]
    · intro r hr hrl
      rw [hid] at hrl
      intro hmem
      rcases List.mem_append.mp hmem with hk | hn
      · have := (List.mem_filter.mp hk).2
        simp only [bne_iff_ne] at this
        exact this hrl
      · have := (mkSupports_mem l.id es store.nextId r hn).2
        have hidlt := (hsup r hr).1
        omega

/-- C3 witness: the store left by merging entry "A" is well-formed, and
merging entry "B" for the same job then leaves exactly one Record ("B") under
the job's single Listing, "A" being gone. -/
theorem save_job_results_replaces_witness :
    save_job_results emptyStore jobNever [entryA] 5 =
      .ok (storeAfterA, { prompt_name := some "test_prompt", domain := "example.org",
                          crawling_interval := 24, last_crawled_at := some 5 }) ∧
    Store.WF storeAfterA ∧
    (∃ (s' : Store) (lst : SupportListing),
      save_job_results storeAfterA jobNever [entryB] 7 =
        .ok (s', { jobNever with last_crawled_at := some 7 }) ∧
      s'.listings.filter (fun l => l.name == listingName jobNever) = [lst] ∧
      lst.uri = jobNever.domain ∧
      (s'.supports.filter (fun r => r.support_listing_id == lst.id)).map Support.toEntry
        = [entryB] ∧
      ∀ r ∈ storeAfterA.supports, r.support_listing_id = lst.id → r ∉ s'.supports) :=
  ⟨by rfl, by decide,
   save_job_results_replaces storeAfterA jobNever [entryB] 7 (by decide)⟩

/-- C9: on a well-formed store, merging the same entries twice for the same
job leaves the same final Listing/Record state as merging once — the listing
rows are identical and the Record contents (all fields except row identity)
are identical, in the same order. -/
theorem save_job_results_idempotent (store : Store) (job : CrawlJob)
    (es : List SupportEntry) (now now' : ℚ) (hwf : store.WF)
    (s₁ s₂ : Store) (j₁ j₂ : CrawlJob)
    (h1 : save_job_results store job es now = .ok (s₁, j₁))
    (h2 : save_job_results s₁ job es now' = .ok (s₂, j₂)) :
    s₂.listings = s₁.listings ∧
    s₂.supports.map Support.toEntry = s₁.supports.map Support.toEntry := by
  obtain ⟨hpw, hlid, hsup⟩ := hwf
  rcases pairwise_names_one_or_none store.listings hpw (listingName job) with hfe | ⟨l, hfl⟩
  · have e1 : save_job_results store job es now =
        .ok ({ listings := store.listings ++
                  [⟨store.nextId, listingName job, job.domain⟩],
               supports := store.supports ++
                  (mkSupports store.nextId es (store.nextId + 1)).1,
               nextId := (mkSupports store.nextId es (store.nextId + 1)).2 },
             { job with last_crawled_at := some now }) := by
      rw [save_job_results, hfe]
      rfl
    rw [e1] at h1
    rw [Except.ok.injEq, Prod.mk.injEq] at h1
    obtain ⟨hs₁, hj₁⟩ := h1
    have hl₁ : s₁.listings =
        store.listings ++ [⟨store.nextId, listingName job, job.domain⟩] := by
      rw [← hs₁]
    have hsup₁ : s₁.supports =
        store.supports ++ (mkSupports store.nextId es (store.nextId + 1)).1 := by
      rw [← hs₁]
    have hf2 : s₁.listings.filter (fun x => x.name == listingName job) =
        [⟨store.nextId, listingName job, job.domain⟩] := by
      rw [hl₁, List.filter_append, hfe, List.nil_append]
      simp
    have e2 : save_job_results s₁ job es now' =
        .ok ({ listings := s₁.listings.map (updateUri store.nextId job.domain),
               supports := s₁.supports.filter
                   (fun r => r.support_listing_id != store.nextId) ++
                 (mkSupports store.nextId es s₁.nextId).1,
               nextId := (mkSupports store.nextId es s₁.nextId).2 },
             { job with last_crawled_at := some now' }) := by
      rw [save_job_results, hf2]
      rfl
    rw [e2] at h2
    rw [Except.ok.injEq, Prod.mk.injEq] at h2
    obtain ⟨hs₂, hj₂⟩ := h2
    have hl₂ : s₂.listings = s₁.listings.map (updateUri store.nextId job.domain) := by
      rw [← hs₂]
    have hsup₂ : s₂.supports = s₁.supports.filter
        (fun r => r.support_listing_id != store.nextId) ++
        (mkSupports store.nextId es s₁.nextId).1 := by
      rw [← hs₂]
    constructor
    · rw [hl₂, hl₁, List.map_append]
      have hmapid : store.listings.map (updateUri store.nextId job.domain) =
          store.listings := by
        have hpt : ∀ x ∈ store.listings, updateUri store.nextId job.domain x = id x := by
          intro x hx
          have := hlid x hx
          unfold updateUri
          rw [if_neg (by omega)]
          rfl
        rw [List.map_congr_left hpt, List.map_id]
      rw [hmapid]
      congr 1
      simp [updateUri]
    · rw [hsup₂, hsup₁, List.filter_append]
      have hkeep : store.supports.filter
          (fun r => r.support_listing_id != store.nextId) = store.supports := by
        apply List.filter_eq_self.mpr
        intro r hr
        have := (hsup r hr).2
        simp only [bne_iff_ne]
        omega
      rw [hkeep, mkSupports_filter_ne, List.append_nil]
      rw [List.map_append, List.map_append, mkSupports_map_toEntry, mkSupports_map_toEntry]
  · have e1 : save_job_results store job es now =
        .ok ({ listings := store.listings.map (updateUri l.id job.domain),
               supports := store.supports.filter
                   (fun r => r.support_listing_id != l.id) ++
                 (mkSupports l.id es store.nextId).1,
               nextId := (mkSupports l.id es store.nextId).2 },
             { job with last_crawled_at := some now }) := by
      rw [save_job_results, hfl]
      rfl
    rw [e1] at h1
    rw [Except.ok.injEq, Prod.mk.injEq] at h1
    obtain ⟨hs₁, hj₁⟩ := h1
    have hl₁ : s₁.listings = store.listings.map (updateUri l.id job.domain) := by
      rw [← hs₁]
    have hsup₁ : s₁.supports = store.supports.filter
        (fun r => r.support_listing_id != l.id) ++ (mkSupports l.id es store.nextId).1 := by
      rw [← hs₁]
    have hf2 : s₁.listings.filter (fun x => x.name == listingName job) =
        [updateUri l.id job.domain l] := by
      rw [hl₁, filter_name_map_updateUri, hfl]
      rfl
    have hulid : (updateUri l.id job.domain l).id = l.id := by
      simp [updateUri]
    have e2 : save_job_results s₁ job es now' =
        .ok ({ listings := s₁.listings.map
                (updateUri (updateUri l.id job.domain l).id job.domain),
               supports := s₁.supports.filter
                   (fun r => r.support_listing_id != (updateUri l.id job.domain l).id) ++
                 (mkSupports (updateUri l.id job.domain l).id es s₁.nextId).1,
               nextId := (mkSupports (updateUri l.id job.domain l).id es s₁.nextId).2 },
             { job with last_crawled_at := some now' }) := by
      rw [save_job_results, hf2]
      rfl
    rw [hulid] at e2
    rw [e2] at h2
    rw [Except.ok.injEq, Prod.mk.injEq] at h2
    obtain ⟨hs₂, hj₂⟩ := h2
    have hl₂ : s₂.listings = s₁.listings.map (updateUri l.id job.domain) := by
      rw [← hs₂]
    have hsup₂ : s₂.supports = s₁.supports.filter
        (fun r => r.support_listing_id != l.id) ++ (mkSupports l.id es s₁.nextId).1 := by
      rw [← hs₂]
    constructor
    · rw [hl₂, hl₁, List.map_map]
      apply List.map_congr_left
      intro x _
      exact updateUri_idem l.id job.domain x
    · rw [hsup₂, hsup₁, List.filter_append]
      have hkeep : (store.supports.filter (fun r => r.support_listing_id != l.id)).filter
          (fun r => r.support_listing_id != l.id) =
          store.supports.filter (fun r => r.support_listing_id != l.id) := by
        apply List.filter_eq_self.mpr
        intro r hr
        exact (List.mem_filter.mp hr).2
      rw [hkeep, mkSupports_filter_ne, List.append_nil]
      rw [List.map_append, List.map_append, mkSupports_map_toEntry, mkSupports_map_toEntry]

/-- C9 witness: merging entry "A" into the empty store and then re-merging the
same entry yields the same listing rows and the same record contents. -/
theorem save_job_results_idempotent_witness :
    storeAfterAA.listings = storeAfterA.listings ∧
    storeAfterAA.supports.map Support.toEntry = storeAfterA.supports.map Support.toEntry :=
  save_job_results_idempotent emptyStore jobNever [entryA] 5 7 (by decide)
    storeAfterA storeAfterAA
    { prompt_name := some "test_prompt", domain := "example.org",
      crawling_interval := 24, last_crawled_at := some 5 }
    { prompt_name := some "test_prompt", domain := "example.org",
      crawling_interval := 24, last_crawled_at := some 7 }
    (by rfl) (by rfl)
